import Mathlib

/-!
# Verification of the tiered semantic-retrieval pipeline

Shallow embedding of `src/memory_interface.py` (class `MemoryInterface`) of the
semantic-retrieval-middleware repository, together with the thin `/test/retrieve`
route of `src/api/test_routes.py`.

Modelling conventions:
* Vector coordinates live in an arbitrary linear ordered commutative ring `α`
  (so the theorems cover the real numbers, the exact superset of the IEEE
  floats the source computes with, while concrete witnesses use `α = ℤ`).
  The cosine threshold test `cos_sim >= 0.90` is encoded exactly with ring
  operations only, see `cosSimGE`.
* The external collaborators (Gemini embedder, pgvector store via
  `db.crud.find_similar`, cross-encoder reranker) are opaque functions in `Env`.
* Python `OrderedDict` (L1) is a list of key/value pairs, front = least
  recently used; `deque(maxlen=10)` (L3) is a list, front = oldest.
* Redis (L2) is a list of key/value pairs holding raw JSON strings, as the
  code stores `json.dumps(results)` and reads them back with `json.loads`.
* A Python exception escaping `retrieve` is an `Except.error`; the state the
  object holds at the moment the exception is raised is kept (mutations done
  before the raise persist, as they do on the Python object).
* The vector-store fallback is broken in the source: line 126 is
  `results = await find_similar(...)`, but `db.crud.find_similar` is a plain
  synchronous function returning a `list[str]`, so the call evaluates (one
  store round-trip) and the `await` of the resulting list then raises
  `TypeError` unconditionally.  The rerank and the L1/L3/L2 admissions of
  lines 128-133 are unreachable; the model raises `PyErr.typeError` there.
-/

namespace SemanticRetrieval

/-- A query/document vector with coordinates in `α`. -/
abbrev Vec (α : Type) := List α

/-- L1 exact cache: `OrderedDict[str, list[str]]`, front = LRU-oldest. -/
abbrev ExactCache := List (String × List String)

/-- L3 semantic cache: `deque[tuple[list[float], list[str]]]`, front = oldest. -/
abbrev SemCache (α : Type) := List (Vec α × List String)

/-- L2 Redis contents: key to raw stored string. -/
abbrev RedisStore := List (String × String)

/-- `self._exact_cache_max = 50`. -/
def exactCacheMax : Nat := 50

/-- `deque(maxlen=10)` bound of the semantic cache. -/
def semanticCacheMax : Nat := 10

/-- `cache_key in self._exact_cache`. -/
def containsKey (c : ExactCache) (k : String) : Bool :=
  c.any (fun p => p.1 == k)

/-- `self._exact_cache[cache_key]` (the value under `k`, when present). -/
def lookupExact (c : ExactCache) (k : String) : Option (List String) :=
  (c.find? (fun p => p.1 == k)).map Prod.snd

/-- `self._exact_cache.move_to_end(cache_key)`: the entry under `k` moves to the
back (most-recent position); everything else keeps its order. -/
def moveToEnd (c : ExactCache) (k : String) : ExactCache :=
  c.filter (fun p => !(p.1 == k)) ++ c.filter (fun p => p.1 == k)

/-- `MemoryInterface._make_cache_key`: the string `f"{query}::{limit}"`. -/
def makeCacheKey (query : String) (limit : Nat) : String :=
  query ++ "::" ++ toString limit

/-- `MemoryInterface._set_exact_cache`: LRU insert/update.  The Python body is
`if key in cache: cache.move_to_end(key)`, then `cache[key] = value` (an
in-place overwrite of the — now last — entry when the key exists, an append at
the back otherwise), then `if len(cache) > 50: cache.popitem(last=False)`. -/
def setExactCache (c : ExactCache) (k : String) (v : List String) : ExactCache :=
  let c2 :=
    if containsKey c k then
      -- move_to_end + overwrite: the key's entry ends up last, with the new value
      c.filter (fun p => !(p.1 == k)) ++ [(k, v)]
    else
      c ++ [(k, v)]
  if exactCacheMax < c2.length then c2.drop 1 else c2

section Vectors

variable {α : Type} [LinearOrderedCommRing α]

/-- `np.dot` of two vectors (exact ring arithmetic). -/
def dotProduct (a b : Vec α) : α :=
  (List.zipWith (· * ·) a b).sum

/-- Squared Euclidean norm (exact): `np.linalg.norm(v) ** 2`. -/
def normSq (a : Vec α) : α :=
  dotProduct a a

/-- Exact encoding of `self._cosine_similarity(a, b) >= 0.90` with
`_cosine_similarity = dot(a,b)/(||a||·||b||)` and the zero-norm guard that
returns `0.0` (never a hit, since `0.0 < 0.90`).  Over the reals, for nonzero
norms, `dot/(√(normSq a)·√(normSq b)) ≥ 9/10` holds iff
`0 ≤ dot ∧ 81·normSq a·normSq b ≤ 100·dot²`, which uses ring operations only. -/
def cosSimGE (a b : Vec α) : Bool :=
  let dp := dotProduct a b
  if normSq a = 0 ∨ normSq b = 0 then false
  else decide (0 ≤ dp) && decide (81 * (normSq a * normSq b) ≤ 100 * (dp * dp))

/-- `MemoryInterface._find_semantic_cache_hit`: linear scan in insertion order
(front = oldest); the first entry whose cosine similarity to the query vector
reaches the 0.90 threshold wins; `None` when no entry does. -/
def findSemanticCacheHit (sc : SemCache α) (queryVector : Vec α) : Option (List String) :=
  match sc with
  | [] => none
  | (cachedVector, cachedResults) :: rest =>
    if cosSimGE queryVector cachedVector then some cachedResults
    else findSemanticCacheHit rest queryVector

/-- `self._semantic_cache.append((v, r))` on a `deque(maxlen=10)`: push at the
tail, dropping from the head whatever exceeds the bound. -/
def semAppend (sc : SemCache α) (x : Vec α × List String) : SemCache α :=
  let sc2 := sc ++ [x]
  sc2.drop (sc2.length - semanticCacheMax)

end Vectors

/-- `redis.get(k)`: `None` when the key is absent. -/
def redisGet (r : RedisStore) (k : String) : Option String :=
  (r.find? (fun p => p.1 == k)).map Prod.snd

/-- `redis.set(k, v)`: overwrite/insert. -/
def redisSet (r : RedisStore) (k v : String) : RedisStore :=
  r.filter (fun p => !(p.1 == k)) ++ [(k, v)]

/-- Python truthiness of `cached` (an `Optional[str]`): `None` and `""` are
falsy, every other string truthy. -/
def pyTruthyStr (o : Option String) : Bool :=
  match o with
  | none => false
  | some s => !(s == "")

/-- Python truthiness of `semantic_cache_result` (an `Optional[list[str]]`):
`None` and the empty list are falsy. -/
def pyTruthyList (o : Option (List String)) : Bool :=
  match o with
  | none => false
  | some l => !l.isEmpty

/-- `json.dumps` escaping for one character (the characters the model covers:
backslash, quote, and the common control characters). -/
def jsonEscapeChar (c : Char) : String :=
  if c = '\\' then "\\\\"
  else if c = '"' then "\\\""
  else if c = '\n' then "\\n"
  else if c = '\t' then "\\t"
  else if c = '\r' then "\\r"
  else String.singleton c

/-- `json.dumps` of one string. -/
def jsonQuote (s : String) : String :=
  "\"" ++ String.join (s.toList.map jsonEscapeChar) ++ "\""

/-- `json.dumps(results)` for a `list[str]`, with CPython's default
separators: `[]`, `["a"]`, `["a", "b"]`. -/
def jsonDumps (l : List String) : String :=
  "[" ++ String.intercalate ", " (l.map jsonQuote) ++ "]"

/-- Skip JSON whitespace. -/
def skipWs : List Char → List Char
  | [] => []
  | c :: cs => if c = ' ' ∨ c = '\n' ∨ c = '\t' ∨ c = '\r' then skipWs cs else c :: cs

/-- Parse the body of a JSON string after the opening quote, returning the
decoded content and the remainder after the closing quote. -/
def parseJsonStringBody : List Char → String → Option (String × List Char)
  | [], _ => none
  | '"' :: rest, acc => some (acc, rest)
  | '\\' :: c :: rest, acc =>
    if c = '"' then parseJsonStringBody rest (acc.push '"')
    else if c = '\\' then parseJsonStringBody rest (acc.push '\\')
    else if c = '/' then parseJsonStringBody rest (acc.push '/')
    else if c = 'n' then parseJsonStringBody rest (acc.push '\n')
    else if c = 't' then parseJsonStringBody rest (acc.push '\t')
    else if c = 'r' then parseJsonStringBody rest (acc.push '\r')
    else none
  | '\\' :: [], _ => none
  | c :: rest, acc => parseJsonStringBody rest (acc.push c)

/-- Parse one JSON string (expects the opening quote). -/
def parseJsonString (cs : List Char) : Option (String × List Char) :=
  match skipWs cs with
  | '"' :: rest => parseJsonStringBody rest ""
  | _ => none

/-- Parse `", "`-separated JSON string items up to and including the closing
bracket.  Fuelled recursion (each item consumes at least one character). -/
def parseJsonItems : Nat → List Char → Option (List String × List Char)
  | 0, _ => none
  | fuel + 1, cs =>
    match parseJsonString cs with
    | none => none
    | some (s, rest) =>
      match skipWs rest with
      | ',' :: rest2 =>
        match parseJsonItems fuel rest2 with
        | some (items, rest3) => some (s :: items, rest3)
        | none => none
      | ']' :: rest2 => some ([s], rest2)
      | _ => none

/-- `json.loads(cached)` restricted to the shape the pipeline reads and writes:
a JSON array of strings.  `none` models `json.loads` raising (or producing a
value outside that shape). -/
def jsonLoads (s : String) : Option (List String) :=
  match skipWs s.toList with
  | '[' :: rest =>
    match skipWs rest with
    | ']' :: rest2 => if skipWs rest2 = [] then some [] else none
    | _ =>
      match parseJsonItems (s.length + 1) rest with
      | some (items, rest3) => if skipWs rest3 = [] then some items else none
      | none => none
  | _ => none

/-- The opaque external collaborators of `MemoryInterface`. -/
structure Env (α : Type) where
  /-- `embedding_client.embed_text([query], task_type="RETRIEVAL_QUERY")`:
  the vectors produced for a query; `[]` models both an empty result and the
  client's `None` (the code only tests `if not embeddings`). -/
  embed : String → List (Vec α)
  /-- `db.crud.find_similar(query_vector, engine, limit)`: texts of the
  `limit` nearest rows by cosine distance. -/
  findSimilar : Vec α → Nat → List String
  /-- `MemoryInterface._rerank(query, docs)` through the cross-encoder:
  opaque reordering of `docs` driven by `query`. -/
  rerank : String → List String → List String
  /-- Whether `redis_client.set` raises (models an unreachable KV store). -/
  redisSetFails : Bool

/-- The mutable caches of a `MemoryInterface` instance, plus the Redis
contents it talks to. -/
structure MemState (α : Type) where
  exactCache : ExactCache
  semanticCache : SemCache α
  redis : RedisStore
deriving DecidableEq

/-- The state at service start: empty L1, L3 (and here an empty L2). -/
def emptyState {α : Type} : MemState α :=
  { exactCache := [], semanticCache := [], redis := [] }

/-- How many times each external collaborator was invoked during one call. -/
structure Calls where
  embed : Nat
  db : Nat
  rerank : Nat
deriving DecidableEq

/-- No collaborator invoked. -/
def noCalls : Calls := { embed := 0, db := 0, rerank := 0 }

/-- A Python exception escaping `retrieve`. -/
inductive PyErr where
  /-- `redis_client.set` raised (modelled KV outage). -/
  | redisSetFailed
  /-- `json.loads` raised on the L2 value. -/
  | jsonDecodeFailed
  /-- the `await` of the synchronous `db.crud.find_similar` result
  (memory_interface.py line 126) raised `TypeError`. -/
  | typeError
deriving DecidableEq

deriving instance DecidableEq for Except

/-- Outcome of one `retrieve` call: the returned list (or the exception), the
state the object and Redis are left in, and the collaborator call counts. -/
structure RetrieveOut (α : Type) where
  result : Except PyErr (List String)
  state : MemState α
  calls : Calls
deriving DecidableEq

section Pipeline

variable {α : Type} [LinearOrderedCommRing α]

/-- Steps 3 onward of `MemoryInterface.retrieve` (everything after the L1/L2
probes): embed, L3 probe, and the vector-store fallback — which in this source
always raises: `await find_similar(...)` awaits the list returned by the
synchronous `db.crud.find_similar`, a `TypeError`, so lines 128-133 (rerank
and the L1/L3/L2 admissions of the miss path) never execute. -/
def retrieveAfterL2 (env : Env α) (query : String) (limit : Nat) (rerank : Bool)
    (s : MemState α) (cacheKey : String) : RetrieveOut α :=
  match env.embed query with
  | [] =>
    -- `if not embeddings: return []`
    { result := .ok [], state := s, calls := { embed := 1, db := 0, rerank := 0 } }
  | queryVector :: _ =>
    -- `query_vector = embeddings[0]`, then the semantic-cache probe
    let scr := findSemanticCacheHit s.semanticCache queryVector
    if pyTruthyList scr then
      let r0 := scr.getD []
      let r1 := if rerank then env.rerank query r0 else r0
      let exact2 := setExactCache s.exactCache cacheKey r1
      let calls : Calls := { embed := 1, db := 0, rerank := if rerank then 1 else 0 }
      if env.redisSetFails then
        { result := .error .redisSetFailed
          state := { s with exactCache := exact2 }
          calls := calls }
      else
        { result := .ok r1
          state := { s with
                      exactCache := exact2
                      redis := redisSet s.redis cacheKey (jsonDumps r1) }
          calls := calls }
    else
      -- step 4: cache miss — `results = await find_similar(query_vector=...,
      -- engine=..., limit=limit)`.  The synchronous store call evaluates, and
      -- the `await` of the list it returns raises TypeError before the rerank
      -- and before any of the L1/L3/L2 admissions of lines 128-133; no cache
      -- is mutated on this path.
      let _ := env.findSimilar queryVector limit
      { result := .error .typeError
        state := s
        calls := { embed := 1, db := 1, rerank := 0 } }

/-- `MemoryInterface.retrieve(query, limit, rerank)`, the full pipeline. -/
def retrieve (env : Env α) (query : String) (limit : Nat) (rerank : Bool)
    (s : MemState α) : RetrieveOut α :=
  let cacheKey := makeCacheKey query limit
  -- 1) L1 exact match (`if cache_key in self._exact_cache`)
  if containsKey s.exactCache cacheKey then
    { result := .ok ((lookupExact s.exactCache cacheKey).getD [])
      state := { s with exactCache := moveToEnd s.exactCache cacheKey }
      calls := noCalls }
  else
    -- 2) L2 Redis exact match (`cached = await redis.get(...)`; `if cached:`)
    let cached := redisGet s.redis cacheKey
    if pyTruthyStr cached then
      match jsonLoads (cached.getD "") with
      | some results =>
        { result := .ok results
          state := { s with exactCache := setExactCache s.exactCache cacheKey results }
          calls := noCalls }
      | none =>
        { result := .error .jsonDecodeFailed, state := s, calls := noCalls }
    else
      retrieveAfterL2 env query limit rerank s cacheKey

/-- Fold a sequence of `retrieve` calls (query, limit, rerank) over the state,
keeping the state each call leaves behind (also when it raised). -/
def runCalls (env : Env α) (calls : List (String × Nat × Bool)) (s : MemState α) :
    MemState α :=
  match calls with
  | [] => s
  | (q, k, rr) :: rest => runCalls env rest (retrieve env q k rr s).state

end Pipeline


/-! ## Spec-comparison definition, route model, and concrete instances -/

/-- The L1 `set` operation as §4.5 of the spec words it: "If key exists, move
to back before overwriting.  Otherwise append at back, and if size >
`EXACT_MAX`, evict the front element."  (Comparison definition for the
refinement claim; the source-derived operation is `setExactCache`.) -/
def setExactCacheSpec (c : ExactCache) (k : String) (v : List String) : ExactCache :=
  if containsKey c k then
    c.filter (fun p => !(p.1 == k)) ++ [(k, v)]
  else
    let c2 := c ++ [(k, v)]
    if exactCacheMax < c2.length then c2.drop 1 else c2

/-- What the `GET /test/retrieve` handler produces: an HTTP status, the JSON
body's `results` field, and the state/calls the wrapped `retrieve` left. -/
structure RouteOut (α : Type) where
  status : Nat
  body : List String
  state : MemState α
  calls : Calls

/-- `test_retrieve` of `src/api/test_routes.py`: the handler performs no
validation of `query` or `limit`; it calls `memory.retrieve(query, limit)`
(`rerank` keeps its default `True`) and wraps the list into a 200 response;
an exception escaping `retrieve` becomes a 500 server error. -/
def testRetrieveRoute {α : Type} [LinearOrderedCommRing α]
    (env : Env α) (query : String) (limit : Nat) (s : MemState α) : RouteOut α :=
  let out := retrieve env query limit true s
  match out.result with
  | .ok results => { status := 200, body := results, state := out.state, calls := out.calls }
  | .error _ => { status := 500, body := [], state := out.state, calls := out.calls }

/-- A 50-entry exact cache, for exercising the eviction boundary. -/
def fullCache50 : ExactCache :=
  (List.range 50).map (fun i => (toString i, []))

/-- An embedder that fails (returns no vectors); the other collaborators are
healthy. -/
def envEmbedFail : Env ℤ :=
  { embed := fun _ => []
    findSimilar := fun _ _ => ["d"]
    rerank := fun _ l => l
    redisSetFails := false }

/-- A healthy concrete environment: every query embeds to `[1]`, the store
returns the first `limit` of two documents, the reranker reverses. -/
def envBase : Env ℤ :=
  { embed := fun _ => [[1]]
    findSimilar := fun _ k => (["d1", "d2"]).take k
    rerank := fun _ l => l.reverse
    redisSetFails := false }

/-- Like `envBase` but with an unreachable Redis: every `set` raises. -/
def envRedisDown : Env ℤ :=
  { embed := fun _ => [[1]]
    findSimilar := fun _ k => (["d1", "d2"]).take k
    rerank := fun _ l => l
    redisSetFails := true }

/-- State for the C1 counterexample: L3 holds one entry whose similarity to
the query vector is 1 (≥ 0.90) but whose stored result list is empty. -/
def stateC1cex : MemState ℤ :=
  { exactCache := [], semanticCache := [([1], [])], redis := [] }

/-- State for the C1 witness: L3 holds a non-empty entry at similarity 1. -/
def stateC1wit : MemState ℤ :=
  { exactCache := [], semanticCache := [([1], ["a", "b"])], redis := [] }

/-- State for the C10 witness, part (a): L1 maps the cache key to the empty
list. -/
def stateL1Empty : MemState ℤ :=
  { exactCache := [(makeCacheKey "q" 5, [])], semanticCache := [], redis := [] }

/-- State for the C10 witness, part (b): L2 holds the JSON string `"[]"`
under the cache key. -/
def stateL2Empty : MemState ℤ :=
  { exactCache := [], semanticCache := [], redis := [(makeCacheKey "q" 5, "[]")] }

/-- State for the C10 witness, part (c): L3 holds one entry at similarity 1
whose stored result list is empty. -/
def stateL3Empty : MemState ℤ :=
  { exactCache := [], semanticCache := [([1], [])], redis := [] }

/-- A state whose L1 holds a two-element list under the key for limit 1
(no truncation is applied on an L1 hit). -/
def stateL1Two : MemState ℤ :=
  { exactCache := [(makeCacheKey "q" 1, ["a", "b"])], semanticCache := [], redis := [] }

/-- A state whose L2 was pre-populated (Redis persists across restarts) with a
two-element JSON list under the key for limit 1. -/
def stateL2Long : MemState ℤ :=
  { exactCache := [], semanticCache := [], redis := [(makeCacheKey "q" 1, "[\"a\", \"b\"]")] }

/-- A state whose L3 holds one non-empty entry at similarity 1 to `[1]`. -/
def stateSemSeeded : MemState ℤ :=
  { exactCache := [], semanticCache := [([1], ["a", "b"])], redis := [] }

end SemanticRetrieval

namespace SemanticRetrieval


/-! ## Structural lemmas about the cache operations -/

lemma moveToEnd_perm (c : ExactCache) (k : String) : (moveToEnd c k).Perm c := by
  induction c with
  | nil => simp [moveToEnd]
  | cons hd tl ih =>
    simp only [moveToEnd, List.filter_cons] at ih ⊢
    cases h : (hd.1 == k) with
    | false =>
      simpa [h] using ih.cons hd
    | true =>
      simp only [h, Bool.not_true, cond_false, cond_true]
      exact (List.perm_middle.trans (ih.cons hd))

lemma length_moveToEnd (c : ExactCache) (k : String) :
    (moveToEnd c k).length = c.length :=
  (moveToEnd_perm c k).length_eq

lemma containsKey_append_single (l : ExactCache) (k : String) (v : List String) :
    containsKey (l ++ [(k, v)]) k = true := by
  simp [containsKey, List.any_append]

lemma length_setExactCache_le (c : ExactCache) (k : String) (v : List String)
    (h : c.length ≤ exactCacheMax) :
    (setExactCache c k v).length ≤ exactCacheMax := by
  have hfil : (c.filter (fun p => !(p.1 == k))).length ≤ c.length :=
    List.length_filter_le _ _
  unfold setExactCache
  cases hck : containsKey c k <;>
    simp only [hck, if_true, if_false, Bool.false_eq_true, Bool.true_eq_false] <;>
    split <;>
    simp only [List.length_drop, List.length_append, List.length_cons,
      List.length_nil] at * <;>
    omega

lemma length_semAppend_le {α : Type} [LinearOrderedCommRing α]
    (sc : SemCache α) (x : Vec α × List String) :
    (semAppend sc x).length ≤ semanticCacheMax := by
  unfold semAppend
  rw [List.length_drop]
  omega

lemma containsKey_setExactCache_self (c : ExactCache) (k : String) (v : List String) :
    containsKey (setExactCache c k v) k = true := by
  unfold setExactCache
  cases hck : containsKey c k <;>
    simp only [hck, if_true, if_false, Bool.false_eq_true, Bool.true_eq_false] <;>
    split
  case false.isTrue hlen =>
    rw [List.drop_append_of_le_length
      (by simp only [exactCacheMax, List.length_append, List.length_cons,
        List.length_nil] at hlen ⊢; omega)]
    exact containsKey_append_single _ k v
  case false.isFalse => exact containsKey_append_single _ k v
  case true.isTrue hlen =>
    rw [List.drop_append_of_le_length
      (by simp only [exactCacheMax, List.length_append, List.length_cons,
        List.length_nil] at hlen ⊢; omega)]
    exact containsKey_append_single _ k v
  case true.isFalse => exact containsKey_append_single _ k v

lemma containsKey_moveToEnd_self (c : ExactCache) (k : String)
    (h : containsKey c k = true) : containsKey (moveToEnd c k) k = true := by
  unfold containsKey at h ⊢
  unfold moveToEnd
  rw [List.any_append]
  rcases List.any_eq_true.mp h with ⟨p, hp, hpk⟩
  have hmem : p ∈ c.filter (fun p => p.1 == k) := List.mem_filter.mpr ⟨hp, hpk⟩
  simp only [Bool.or_eq_true]
  exact Or.inr (List.any_eq_true.mpr ⟨p, hmem, hpk⟩)



/-! ## Size invariants of L1 and L3 -/

/-- One `retrieve` call keeps both cache bounds, whatever path it takes and
also when it raises (the partially mutated state still satisfies them). -/
lemma retrieve_preserves_bounds {α : Type} [LinearOrderedCommRing α]
    (env : Env α) (q : String) (k : Nat) (rr : Bool) (s : MemState α)
    (h1 : s.exactCache.length ≤ exactCacheMax)
    (h3 : s.semanticCache.length ≤ semanticCacheMax) :
    (retrieve env q k rr s).state.exactCache.length ≤ exactCacheMax ∧
    (retrieve env q k rr s).state.semanticCache.length ≤ semanticCacheMax := by
  unfold retrieve retrieveAfterL2
  dsimp only
  split
  case isTrue =>
    exact ⟨le_of_eq_of_le (length_moveToEnd _ _) h1, h3⟩
  case isFalse =>
    split
    case isTrue =>
      split
      case h_1 => exact ⟨length_setExactCache_le _ _ _ h1, h3⟩
      case h_2 => exact ⟨h1, h3⟩
    case isFalse =>
      split
      case h_1 => exact ⟨h1, h3⟩
      case h_2 =>
        split
        case isTrue =>
          split <;> exact ⟨length_setExactCache_le _ _ _ h1, h3⟩
        case isFalse =>
          exact ⟨h1, h3⟩

lemma runCalls_preserves_bounds {α : Type} [LinearOrderedCommRing α]
    (env : Env α) (calls : List (String × Nat × Bool)) (s : MemState α)
    (h1 : s.exactCache.length ≤ exactCacheMax)
    (h3 : s.semanticCache.length ≤ semanticCacheMax) :
    (runCalls env calls s).exactCache.length ≤ exactCacheMax ∧
    (runCalls env calls s).semanticCache.length ≤ semanticCacheMax := by
  induction calls generalizing s with
  | nil => exact ⟨h1, h3⟩
  | cons c rest ih =>
    obtain ⟨q, k, rr⟩ := c
    have := retrieve_preserves_bounds env q k rr s h1 h3
    exact ih _ this.1 this.2

/-- C5: for every sequence of `retrieve` calls starting from empty caches,
after each call the exact cache (L1) holds at most 50 entries and the
semantic cache (L3) holds at most 10 entries. -/
theorem c5_cache_size_bounds {α : Type} [LinearOrderedCommRing α]
    (env : Env α) (calls : List (String × Nat × Bool)) :
    (runCalls env calls emptyState).exactCache.length ≤ 50 ∧
    (runCalls env calls emptyState).semanticCache.length ≤ 10 :=
  runCalls_preserves_bounds env calls emptyState (by simp [emptyState]) (by simp [emptyState])



/-! ## The L1 set operation against the spec's wording -/

lemma setExactCache_pos (c : ExactCache) (k : String) (v : List String)
    (hck : containsKey c k = true) :
    setExactCache c k v =
      (if exactCacheMax < (c.filter (fun p => !(p.1 == k)) ++ [(k, v)]).length
       then (c.filter (fun p => !(p.1 == k)) ++ [(k, v)]).drop 1
       else c.filter (fun p => !(p.1 == k)) ++ [(k, v)]) := by
  unfold setExactCache
  rw [hck]
  simp

lemma setExactCache_neg (c : ExactCache) (k : String) (v : List String)
    (hck : containsKey c k = false) :
    setExactCache c k v =
      (if exactCacheMax < (c ++ [(k, v)]).length
       then (c ++ [(k, v)]).drop 1
       else c ++ [(k, v)]) := by
  unfold setExactCache
  rw [hck]
  simp

lemma filter_length_lt_of_containsKey (c : ExactCache) (k : String)
    (h : containsKey c k = true) :
    (c.filter (fun p => !(p.1 == k))).length < c.length := by
  rcases List.any_eq_true.mp h with ⟨p, hp, hpk⟩
  refine List.length_filter_lt_length_iff_exists.mpr ⟨p, hp, ?_⟩
  simp [hpk]

/-- C6: for every key and value, the L1 set operation behaves as the spec
describes (move-to-back on overwrite, append otherwise, evict the front past
the bound), and inserting a 51st distinct key evicts exactly the
least-recently-used (front) entry and nothing else. -/
theorem c6_set_exact_cache_lru (c : ExactCache) (k : String) (v : List String)
    (h : c.length ≤ 50) :
    setExactCache c k v = setExactCacheSpec c k v ∧
    (c.length = 50 → containsKey c k = false →
      setExactCache c k v = c.drop 1 ++ [(k, v)]) := by
  constructor
  · unfold setExactCacheSpec
    cases hck : containsKey c k with
    | true =>
      have hlt := filter_length_lt_of_containsKey c k hck
      rw [setExactCache_pos c k v hck, if_pos rfl, if_neg (by
        simp only [exactCacheMax, List.length_append, List.length_cons,
          List.length_nil]
        omega)]
    | false =>
      rw [setExactCache_neg c k v hck]
      simp
  · intro h50 hck
    rw [setExactCache_neg c k v hck, if_pos (by
      simp only [exactCacheMax, List.length_append, List.length_cons,
        List.length_nil]
      omega)]
    rw [List.drop_append_of_le_length (by omega)]

theorem c6_witness :
    setExactCache fullCache50 "k" ["v"] = setExactCacheSpec fullCache50 "k" ["v"] ∧
    setExactCache fullCache50 "k" ["v"] = fullCache50.drop 1 ++ [("k", ["v"])] :=
  ⟨(c6_set_exact_cache_lru fullCache50 "k" ["v"] (by decide)).1,
   (c6_set_exact_cache_lru fullCache50 "k" ["v"] (by decide)).2 (by decide) (by decide)⟩

/-! ## Reduction lemmas for the pipeline branches -/

/-- When L1 and L2 both miss, `retrieve` is the post-probe pipeline. -/
lemma retrieve_eq_afterL2 {α : Type} [LinearOrderedCommRing α]
    (env : Env α) (q : String) (k : Nat) (rr : Bool) (s : MemState α)
    (hL1 : containsKey s.exactCache (makeCacheKey q k) = false)
    (hL2 : redisGet s.redis (makeCacheKey q k) = none) :
    retrieve env q k rr s = retrieveAfterL2 env q k rr s (makeCacheKey q k) := by
  unfold retrieve
  dsimp only
  rw [if_neg (by simp [hL1]), hL2]
  rw [if_neg (by simp [pyTruthyStr])]



/-! ## C8: empty embedding -/

/-- C8: when L1 and L2 miss and the embedder returns empty (or `None`), the
call returns `[]`, mutates no cache, and never reaches the vector store. -/
theorem c8_empty_embedding_no_mutation {α : Type} [LinearOrderedCommRing α]
    (env : Env α) (q : String) (k : Nat) (rr : Bool) (s : MemState α)
    (hL1 : containsKey s.exactCache (makeCacheKey q k) = false)
    (hL2 : redisGet s.redis (makeCacheKey q k) = none)
    (hEmb : env.embed q = []) :
    retrieve env q k rr s =
      { result := .ok [], state := s, calls := { embed := 1, db := 0, rerank := 0 } } := by
  rw [retrieve_eq_afterL2 env q k rr s hL1 hL2]
  unfold retrieveAfterL2
  rw [hEmb]

theorem c8_witness :
    envEmbedFail.embed "bad" = [] ∧
    retrieve envEmbedFail "bad" 5 true emptyState =
      { result := .ok [], state := emptyState
        calls := { embed := 1, db := 0, rerank := 0 } } :=
  ⟨rfl, c8_empty_embedding_no_mutation envEmbedFail "bad" 5 true emptyState
    (by decide) rfl rfl⟩

/-! ## C2: the full-miss path (code bug) -/

/-- C2: the claim describes the intended full-miss behavior (fetch top-limit,
rerank, admit to L1, L3 and L2, return), and the code means to do exactly that
in lines 126-133, but `await find_similar(...)` awaits the list returned by
the synchronous `db.crud.find_similar`, so at the failing input — a full miss
with healthy collaborators — the call raises TypeError after the store
round-trip, admits nothing anywhere, and returns nothing. -/
theorem c2_full_miss_raises_type_error :
    (retrieve envBase "new" 2 true emptyState).result = Except.error PyErr.typeError ∧
    (retrieve envBase "new" 2 true emptyState).state = emptyState ∧
    (retrieve envBase "new" 2 true emptyState).calls =
      { embed := 1, db := 1, rerank := 0 } := by
  refine ⟨by decide, by decide, by decide⟩

/-! ## C1: semantic-cache hit (corrected) -/

/-- C1 counterexample: all of C1's premises hold — L1 and L2 miss, the
embedding is non-empty, and L3 holds an entry whose cosine similarity to the
query vector reaches 0.90 — yet the pipeline does not return that entry's
cached (empty) list and stores nothing: `if semantic_cache_result:` is falsy
for an empty list, so the call falls through to the vector-store branch,
whose `await` of the synchronous `find_similar` raises TypeError with every
cache unchanged. -/
theorem c1_counterexample :
    cosSimGE ([1] : Vec ℤ) [1] = true ∧
    findSemanticCacheHit stateC1cex.semanticCache [1] = some [] ∧
    (retrieve envBase "q" 5 true stateC1cex).result = Except.error PyErr.typeError ∧
    (retrieve envBase "q" 5 true stateC1cex).state = stateC1cex := by
  refine ⟨by decide, by decide, by decide, by decide⟩

/-- C1 (amended): as C1, additionally assuming the scan's first ≥-threshold
entry has a non-empty result list.  Then the pipeline returns that entry's
cached list (re-ranked against the current query when `rerank`), admits it to
L1 and L2 under the current cache key, leaves L3 unchanged, and does not touch
the vector store. -/
theorem c1_semantic_hit_promotes {α : Type} [LinearOrderedCommRing α]
    (env : Env α) (q : String) (k : Nat) (rr : Bool) (s : MemState α)
    (qv : Vec α) (vs : List (Vec α)) (r0 r1 : List String)
    (hL1 : containsKey s.exactCache (makeCacheKey q k) = false)
    (hL2 : redisGet s.redis (makeCacheKey q k) = none)
    (hEmb : env.embed q = qv :: vs)
    (hHit : findSemanticCacheHit s.semanticCache qv = some r0)
    (hNe : r0 ≠ [])
    (hRedis : env.redisSetFails = false)
    (hr1 : r1 = if rr then env.rerank q r0 else r0) :
    retrieve env q k rr s =
      { result := .ok r1
        state := { exactCache := setExactCache s.exactCache (makeCacheKey q k) r1
                   semanticCache := s.semanticCache
                   redis := redisSet s.redis (makeCacheKey q k) (jsonDumps r1) }
        calls := { embed := 1, db := 0, rerank := if rr then 1 else 0 } } := by
  subst hr1
  rw [retrieve_eq_afterL2 env q k rr s hL1 hL2]
  unfold retrieveAfterL2
  rw [hEmb]
  dsimp only
  rw [hHit]
  rw [if_pos (by cases r0 with
    | nil => exact absurd rfl hNe
    | cons a as => simp [pyTruthyList])]
  rw [if_neg (by simp [hRedis])]
  rfl

theorem c1_witness :
    findSemanticCacheHit stateC1wit.semanticCache [1] = some ["a", "b"] ∧
    retrieve envBase "q" 5 true stateC1wit =
      { result := .ok ["b", "a"]
        state := { exactCache := setExactCache stateC1wit.exactCache (makeCacheKey "q" 5) ["b", "a"]
                   semanticCache := stateC1wit.semanticCache
                   redis := redisSet stateC1wit.redis (makeCacheKey "q" 5) (jsonDumps ["b", "a"]) }
        calls := { embed := 1, db := 0, rerank := 1 } } :=
  ⟨by decide, c1_semantic_hit_promotes envBase "q" 5 true stateC1wit [1] [] ["a", "b"] ["b", "a"]
    (by decide) rfl rfl (by decide) (by decide) rfl (by decide)⟩


end SemanticRetrieval

namespace SemanticRetrieval

/-! ## L1 and L2 hit characterizations -/

/-- An L1 hit: `retrieve` refreshes recency and returns the stored value,
invoking no collaborator. -/
lemma retrieve_l1_hit {α : Type} [LinearOrderedCommRing α]
    (env : Env α) (q : String) (k : Nat) (rr : Bool) (s : MemState α)
    (hck : containsKey s.exactCache (makeCacheKey q k) = true) :
    retrieve env q k rr s =
      { result := .ok ((lookupExact s.exactCache (makeCacheKey q k)).getD [])
        state := { s with exactCache := moveToEnd s.exactCache (makeCacheKey q k) }
        calls := noCalls } := by
  unfold retrieve
  dsimp only
  rw [if_pos hck]

lemma containsKey_of_lookupExact (c : ExactCache) (k : String) (v : List String)
    (h : lookupExact c k = some v) : containsKey c k = true := by
  unfold lookupExact at h
  rcases Option.map_eq_some'.mp h with ⟨p, hfind, _⟩
  have hpred := List.find?_some hfind
  exact List.any_eq_true.mpr
    ⟨p, List.mem_of_find?_eq_some hfind, by simpa using hpred⟩

/-- An L2 hit with a decodable value: decode, promote to L1, return. -/
lemma retrieve_l2_hit {α : Type} [LinearOrderedCommRing α]
    (env : Env α) (q : String) (k : Nat) (rr : Bool) (s : MemState α)
    (c : String) (results : List String)
    (hL1 : containsKey s.exactCache (makeCacheKey q k) = false)
    (hC : redisGet s.redis (makeCacheKey q k) = some c)
    (hNe : c ≠ "")
    (hJ : jsonLoads c = some results) :
    retrieve env q k rr s =
      { result := .ok results
        state := { s with exactCache := setExactCache s.exactCache (makeCacheKey q k) results }
        calls := noCalls } := by
  unfold retrieve
  dsimp only
  rw [if_neg (by simp [hL1]), hC]
  rw [if_pos (by simp [pyTruthyStr, hNe])]
  rw [Option.getD_some, hJ]

/-- An L2 hit whose value does not decode: `json.loads` raises and nothing is
mutated. -/
lemma retrieve_l2_decode_error {α : Type} [LinearOrderedCommRing α]
    (env : Env α) (q : String) (k : Nat) (rr : Bool) (s : MemState α) (c : String)
    (hL1 : containsKey s.exactCache (makeCacheKey q k) = false)
    (hC : redisGet s.redis (makeCacheKey q k) = some c)
    (hNe : c ≠ "")
    (hJ : jsonLoads c = none) :
    retrieve env q k rr s =
      { result := .error .jsonDecodeFailed, state := s, calls := noCalls } := by
  unfold retrieve
  dsimp only
  rw [if_neg (by simp [hL1]), hC]
  rw [if_pos (by simp [pyTruthyStr, hNe])]
  rw [Option.getD_some, hJ]

/-- Like `retrieve_eq_afterL2` but for any falsy L2 probe result (absent key
or an empty stored string). -/
lemma retrieve_eq_afterL2_of_falsy {α : Type} [LinearOrderedCommRing α]
    (env : Env α) (q : String) (k : Nat) (rr : Bool) (s : MemState α)
    (hL1 : containsKey s.exactCache (makeCacheKey q k) = false)
    (hT : pyTruthyStr (redisGet s.redis (makeCacheKey q k)) = false) :
    retrieve env q k rr s = retrieveAfterL2 env q k rr s (makeCacheKey q k) := by
  unfold retrieve
  dsimp only
  rw [if_neg (by simp [hL1]), if_neg (by simp [hT])]

/-! ## C3: result length vs limit (corrected) -/

/-- C3 counterexample: an L2 entry pre-populated with a two-element list under
the key for limit 1 (Redis persists across restarts and is not written by this
program) is decoded and returned verbatim by `retrieve("q", 1)`: the returned
list has length 2 > limit 1.  No truncation to `limit` exists on any
returning path. -/
theorem c3_counterexample :
    (retrieve envBase "q" 1 true stateL2Long).result = Except.ok ["a", "b"] ∧
    1 < (["a", "b"] : List String).length := by
  exact ⟨by decide, by decide⟩

/-- C3 (amended): `retrieve` applies no truncation to `limit`: a call answered
from L1 returns the stored list verbatim, and a call answered from L2 returns
the JSON-decoded stored value verbatim, whatever their lengths — so the
returned length is bounded by `limit` only when the cached entry itself is.
(The one path that would fetch at most `limit` rows, the vector-store
fallback, raises TypeError at line 126 before returning.) -/
theorem c3_cached_lists_returned_verbatim {α : Type} [LinearOrderedCommRing α] :
    (∀ (env : Env α) (q : String) (k : Nat) (rr : Bool) (s : MemState α)
      (v : List String),
      lookupExact s.exactCache (makeCacheKey q k) = some v →
      (retrieve env q k rr s).result = .ok v) ∧
    (∀ (env : Env α) (q : String) (k : Nat) (rr : Bool) (s : MemState α)
      (c : String) (v : List String),
      containsKey s.exactCache (makeCacheKey q k) = false →
      redisGet s.redis (makeCacheKey q k) = some c →
      c ≠ "" →
      jsonLoads c = some v →
      (retrieve env q k rr s).result = .ok v) := by
  constructor
  · intro env q k rr s v hLook
    rw [retrieve_l1_hit env q k rr s (containsKey_of_lookupExact _ _ _ hLook), hLook]
    rfl
  · intro env q k rr s c v hL1 hC hNe hJ
    rw [retrieve_l2_hit env q k rr s c v hL1 hC hNe hJ]

theorem c3_witness :
    (retrieve envBase "q" 1 true stateL1Two).result = Except.ok ["a", "b"] ∧
    (retrieve envBase "q" 1 true stateL2Long).result = Except.ok ["a", "b"] :=
  ⟨(c3_cached_lists_returned_verbatim (α := ℤ)).1 envBase "q" 1 true stateL1Two
     ["a", "b"] (by decide),
   (c3_cached_lists_returned_verbatim (α := ℤ)).2 envBase "q" 1 true stateL2Long
     "[\"a\", \"b\"]" ["a", "b"] (by decide) (by decide) (by decide) (by decide)⟩

/-! ## C10: the empty result list across the tiers -/

/-- C10: the empty list behaves asymmetrically across the tiers.
(a) An empty list stored in L1 under the cache key is returned on an L1 hit
(the probe is a membership test).  (b) The JSON string `"[]"` stored in L2
is truthy, decodes to `[]`, is promoted to L1 and returned.  (c) An L3 entry
whose stored list is empty is never returned: even at similarity ≥ 0.90 the
scan's result is falsy and the pipeline falls through to the vector store. -/
theorem c10_empty_list_tier_asymmetry {α : Type} [LinearOrderedCommRing α] :
    (∀ (env : Env α) (q : String) (k : Nat) (rr : Bool) (s : MemState α),
      lookupExact s.exactCache (makeCacheKey q k) = some [] →
      (retrieve env q k rr s).result = .ok []) ∧
    (∀ (env : Env α) (q : String) (k : Nat) (rr : Bool) (s : MemState α),
      containsKey s.exactCache (makeCacheKey q k) = false →
      redisGet s.redis (makeCacheKey q k) = some "[]" →
      retrieve env q k rr s =
        { result := .ok []
          state := { s with exactCache := setExactCache s.exactCache (makeCacheKey q k) [] }
          calls := noCalls }) ∧
    (∀ (env : Env α) (q : String) (k : Nat) (rr : Bool) (s : MemState α)
      (qv : Vec α) (vs : List (Vec α)),
      containsKey s.exactCache (makeCacheKey q k) = false →
      redisGet s.redis (makeCacheKey q k) = none →
      env.embed q = qv :: vs →
      findSemanticCacheHit s.semanticCache qv = some [] →
      (retrieve env q k rr s).calls.db = 1 ∧ (retrieve env q k rr s).calls.embed = 1) := by
  refine ⟨?_, ?_, ?_⟩
  · intro env q k rr s hLook
    rw [retrieve_l1_hit env q k rr s (containsKey_of_lookupExact _ _ _ hLook), hLook]
    rfl
  · intro env q k rr s hL1 hC
    exact retrieve_l2_hit env q k rr s "[]" [] hL1 hC (by decide) (by decide)
  · intro env q k rr s qv vs hL1 hL2 hEmb hHit
    rw [retrieve_eq_afterL2 env q k rr s hL1 hL2]
    unfold retrieveAfterL2
    rw [hEmb]
    dsimp only
    rw [hHit]
    rw [if_neg (by simp [pyTruthyList])]
    exact ⟨rfl, rfl⟩

theorem c10_witness :
    (retrieve envBase "q" 5 true stateL1Empty).result = Except.ok [] ∧
    retrieve envBase "q" 5 true stateL2Empty =
      { result := .ok []
        state := { stateL2Empty with
                    exactCache := setExactCache stateL2Empty.exactCache (makeCacheKey "q" 5) [] }
        calls := noCalls } ∧
    (retrieve envBase "q" 5 true stateL3Empty).calls.db = 1 ∧
    (retrieve envBase "q" 5 true stateL3Empty).calls.embed = 1 :=
  ⟨(c10_empty_list_tier_asymmetry (α := ℤ)).1 envBase "q" 5 true stateL1Empty (by decide),
   (c10_empty_list_tier_asymmetry (α := ℤ)).2.1 envBase "q" 5 true stateL2Empty
     (by decide) (by decide),
   (c10_empty_list_tier_asymmetry (α := ℤ)).2.2 envBase "q" 5 true stateL3Empty [1] []
     (by decide) rfl rfl (by decide)⟩

end SemanticRetrieval

namespace SemanticRetrieval

/-! ## C7: L2 write failure during admission (corrected) -/

/-- C7 counterexample: a call answered by a semantic-cache hit (the one living
path that performs an L2 admission write) fails as a whole when Redis is
unreachable: the `await redis.set(...)` of line 121 has no exception handler,
so the result list the call had already obtained from L3 is never returned. -/
theorem c7_counterexample :
    (retrieve envRedisDown "q" 5 true stateSemSeeded).result =
      Except.error PyErr.redisSetFailed := by
  decide

/-- C7 (amended): when L1 and L2 miss, the embedding is non-empty, the
semantic-cache scan hits a non-empty entry, and the L2 write fails, the
exception propagates out of `retrieve` (no logging, no recovery) and the
result is not returned, while the L1 admission performed just before the
failing write persists on the object.  (The other L2 admission write, on the
vector-store path, is unreachable: that path raises TypeError at line 126
first.) -/
theorem c7_redis_write_failure_propagates {α : Type} [LinearOrderedCommRing α]
    (env : Env α) (q : String) (k : Nat) (rr : Bool) (s : MemState α)
    (qv : Vec α) (vs : List (Vec α)) (r0 : List String)
    (hL1 : containsKey s.exactCache (makeCacheKey q k) = false)
    (hL2 : redisGet s.redis (makeCacheKey q k) = none)
    (hEmb : env.embed q = qv :: vs)
    (hHit : findSemanticCacheHit s.semanticCache qv = some r0)
    (hNe : r0 ≠ [])
    (hFail : env.redisSetFails = true) :
    (retrieve env q k rr s).result = .error .redisSetFailed ∧
    containsKey (retrieve env q k rr s).state.exactCache (makeCacheKey q k) = true := by
  rw [retrieve_eq_afterL2 env q k rr s hL1 hL2]
  unfold retrieveAfterL2
  rw [hEmb]
  dsimp only
  rw [hHit]
  rw [if_pos (by cases r0 with
    | nil => exact absurd rfl hNe
    | cons a as => simp [pyTruthyList])]
  rw [if_pos hFail]
  exact ⟨rfl, containsKey_setExactCache_self _ _ _⟩

theorem c7_witness :
    (retrieve envRedisDown "w" 3 true stateSemSeeded).result =
      Except.error PyErr.redisSetFailed ∧
    containsKey (retrieve envRedisDown "w" 3 true stateSemSeeded).state.exactCache
      (makeCacheKey "w" 3) = true :=
  c7_redis_write_failure_propagates envRedisDown "w" 3 true stateSemSeeded [1] []
    ["a", "b"] (by decide) rfl rfl (by decide) (by decide) rfl

/-! ## C9: boundary validation (corrected) -/

/-- Helper: the post-probe pipeline always invokes the embedder exactly once. -/
lemma afterL2_calls_embed {α : Type} [LinearOrderedCommRing α]
    (env : Env α) (q : String) (k : Nat) (rr : Bool) (s : MemState α) (ck : String) :
    (retrieveAfterL2 env q k rr s ck).calls.embed = 1 := by
  unfold retrieveAfterL2
  split
  · rfl
  · rename_i qv vs heq
    dsimp only
    by_cases hsem : pyTruthyList (findSemanticCacheHit s.semanticCache qv) = true
    · rw [if_pos hsem]
      by_cases hf : env.redisSetFails = true
      · rw [if_pos hf]
      · rw [if_neg hf]
    · rw [if_neg hsem]

/-- C9 counterexample: a request with an empty query and `limit = 0` is not
rejected: the handler has no validation, the pipeline executes (embedder and
vector store both invoked), and the response is a 500 — the TypeError of the
broken store path — not a 4xx boundary rejection. -/
theorem c9_counterexample :
    (testRetrieveRoute envBase "" 0 emptyState).status = 500 ∧
    (testRetrieveRoute envBase "" 0 emptyState).calls.embed = 1 ∧
    (testRetrieveRoute envBase "" 0 emptyState).calls.db = 1 := by
  refine ⟨by decide, by decide, by decide⟩

/-- C9 (amended): the service performs no boundary validation: a request with
an empty query and `limit = 0` that misses L1 and L2 executes the retrieval
pipeline (the embedder is invoked), and every response status is 200 or 500 —
never a 4xx rejection. -/
theorem c9_no_boundary_validation {α : Type} [LinearOrderedCommRing α]
    (env : Env α) (s : MemState α)
    (hL1 : containsKey s.exactCache (makeCacheKey "" 0) = false)
    (hL2 : redisGet s.redis (makeCacheKey "" 0) = none) :
    (testRetrieveRoute env "" 0 s).calls.embed = 1 ∧
    ((testRetrieveRoute env "" 0 s).status = 200 ∨
      (testRetrieveRoute env "" 0 s).status = 500) := by
  unfold testRetrieveRoute
  dsimp only
  rw [retrieve_eq_afterL2 env "" 0 true s hL1 hL2]
  constructor
  · split
    · rename_i heq
      have := afterL2_calls_embed env "" 0 true s (makeCacheKey "" 0)
      dsimp only
      exact this
    · rename_i heq
      have := afterL2_calls_embed env "" 0 true s (makeCacheKey "" 0)
      dsimp only
      exact this
  · split
    · exact Or.inl rfl
    · exact Or.inr rfl

theorem c9_witness :
    (testRetrieveRoute envBase "" 0 emptyState).calls.embed = 1 ∧
    ((testRetrieveRoute envBase "" 0 emptyState).status = 200 ∨
      (testRetrieveRoute envBase "" 0 emptyState).status = 500) :=
  c9_no_boundary_validation envBase emptyState (by decide) rfl

/-! ## C4: two successive identical calls (corrected) -/

/-- C4 counterexample: when the embedder returns empty, the first call caches
nothing, so the second of two successive identical calls invokes the embedder
again — the claim's "second call invokes neither the embedder, nor the vector
store, nor the reranker" fails. -/
theorem c4_counterexample :
    (retrieve envEmbedFail "q" 5 true
      (retrieve envEmbedFail "q" 5 true emptyState).state).calls.embed = 1 := by
  decide

/-- After a call that embedded successfully and returned a value, the cache
key is present in L1. -/
lemma afterL2_ok_containsKey {α : Type} [LinearOrderedCommRing α]
    (env : Env α) (q : String) (k : Nat) (rr : Bool) (s : MemState α)
    (ck : String) (r : List String)
    (hEmb : env.embed q ≠ [])
    (hok : (retrieveAfterL2 env q k rr s ck).result = .ok r) :
    containsKey (retrieveAfterL2 env q k rr s ck).state.exactCache ck = true := by
  unfold retrieveAfterL2 at hok ⊢
  cases he : env.embed q with
  | nil => exact absurd he hEmb
  | cons qv vs =>
    rw [he] at hok
    dsimp only at hok ⊢
    by_cases hsem : pyTruthyList (findSemanticCacheHit s.semanticCache qv) = true
    · rw [if_pos hsem] at hok ⊢
      by_cases hf : env.redisSetFails = true
      · rw [if_pos hf] at hok
        exact Except.noConfusion hok
      · rw [if_neg hf] at hok ⊢
        exact containsKey_setExactCache_self _ _ _
    · rw [if_neg hsem] at hok
      exact Except.noConfusion hok

/-- After any `retrieve` whose embedder is non-failing and whose result was
returned, the cache key is present in L1. -/
lemma containsKey_after_ok {α : Type} [LinearOrderedCommRing α]
    (env : Env α) (q : String) (k : Nat) (rr : Bool) (s : MemState α) (r : List String)
    (hEmb : env.embed q ≠ [])
    (hok : (retrieve env q k rr s).result = .ok r) :
    containsKey (retrieve env q k rr s).state.exactCache (makeCacheKey q k) = true := by
  by_cases h1 : containsKey s.exactCache (makeCacheKey q k) = true
  · rw [retrieve_l1_hit env q k rr s h1]
    exact containsKey_moveToEnd_self _ _ h1
  · have h1f : containsKey s.exactCache (makeCacheKey q k) = false := by
      simpa using h1
    by_cases hT : pyTruthyStr (redisGet s.redis (makeCacheKey q k)) = true
    · cases hC : redisGet s.redis (makeCacheKey q k) with
      | none =>
        rw [hC] at hT
        exact absurd hT (by simp [pyTruthyStr])
      | some c =>
        have hNe : c ≠ "" := by
          rw [hC] at hT
          simpa [pyTruthyStr] using hT
        cases hJ : jsonLoads c with
        | some results =>
          rw [retrieve_l2_hit env q k rr s c results h1f hC hNe hJ]
          exact containsKey_setExactCache_self _ _ _
        | none =>
          rw [retrieve_l2_decode_error env q k rr s c h1f hC hNe hJ] at hok
          exact Except.noConfusion hok
    · have hTf : pyTruthyStr (redisGet s.redis (makeCacheKey q k)) = false := by
        simpa using hT
      rw [retrieve_eq_afterL2_of_falsy env q k rr s h1f hTf] at hok ⊢
      exact afterL2_ok_containsKey env q k rr s _ r hEmb hok

/-- C4 (amended): for two successive identical `retrieve(q, k)` calls with no
intervening operation, provided the first call's embedding is non-empty and
its result was returned, the second call is answered from L1: it invokes none
of the embedder, vector store, or reranker, returns the L1 entry, and changes
no cache state except L1 recency (same entries, refreshed order). -/
theorem c4_second_identical_call_from_l1 {α : Type} [LinearOrderedCommRing α]
    (env : Env α) (q : String) (k : Nat) (rr : Bool) (s : MemState α) (r : List String)
    (hEmb : env.embed q ≠ [])
    (hok : (retrieve env q k rr s).result = .ok r) :
    (retrieve env q k rr (retrieve env q k rr s).state).calls = noCalls ∧
    (retrieve env q k rr (retrieve env q k rr s).state).result =
      .ok ((lookupExact (retrieve env q k rr s).state.exactCache (makeCacheKey q k)).getD []) ∧
    (retrieve env q k rr (retrieve env q k rr s).state).state.redis =
      (retrieve env q k rr s).state.redis ∧
    (retrieve env q k rr (retrieve env q k rr s).state).state.semanticCache =
      (retrieve env q k rr s).state.semanticCache ∧
    (retrieve env q k rr (retrieve env q k rr s).state).state.exactCache.Perm
      (retrieve env q k rr s).state.exactCache := by
  have hc := containsKey_after_ok env q k rr s r hEmb hok
  rw [retrieve_l1_hit env q k rr (retrieve env q k rr s).state hc]
  exact ⟨rfl, rfl, rfl, rfl, moveToEnd_perm _ _⟩

theorem c4_witness :
    (retrieve envBase "w2" 2 true (retrieve envBase "w2" 2 true stateSemSeeded).state).calls = noCalls ∧
    (retrieve envBase "w2" 2 true (retrieve envBase "w2" 2 true stateSemSeeded).state).result =
      .ok ((lookupExact (retrieve envBase "w2" 2 true stateSemSeeded).state.exactCache
        (makeCacheKey "w2" 2)).getD []) ∧
    (retrieve envBase "w2" 2 true (retrieve envBase "w2" 2 true stateSemSeeded).state).state.redis =
      (retrieve envBase "w2" 2 true stateSemSeeded).state.redis ∧
    (retrieve envBase "w2" 2 true (retrieve envBase "w2" 2 true stateSemSeeded).state).state.semanticCache =
      (retrieve envBase "w2" 2 true stateSemSeeded).state.semanticCache ∧
    (retrieve envBase "w2" 2 true (retrieve envBase "w2" 2 true stateSemSeeded).state).state.exactCache.Perm
      (retrieve envBase "w2" 2 true stateSemSeeded).state.exactCache :=
  c4_second_identical_call_from_l1 envBase "w2" 2 true stateSemSeeded ["b", "a"]
    (by decide) (by decide)

end SemanticRetrieval
